import Mathlib

/-!
Shallow embedding of the build-job lifecycle engine of the leeroyci
repository, and verification of the frozen specification claims.

Conventions of the embedding:
* Go `time.Time` values are modelled as `Nat`: the zero value (the
  unset timestamp) is `0`, and `t.After(time.Time{})` is `0 < t`.
* Go strings are Lean `String`s; `strings.Split` with the one-character
  separator `/` is embedded as `goSplit` over the character list,
  following Go's semantics (`Split("", sep) = [""]`).
* Fallible or panicking Go code is embedded with `Option` / `Except`:
  a Go `panic` (explicit, or an index-out-of-range) is an
  `Except.error` carrying the kind of panic.
-/

namespace Database

/-- `JobStatusSuccess` from `database/job.go`. -/
def JobStatusSuccess : String := "success"

/-- `JobStatusError` from `database/job.go`. -/
def JobStatusError : String := "error"

/-- `JobStatusPending` from `database/job.go`. -/
def JobStatusPending : String := "pending"

/-- Kinds of configured commands (`CommandKindBuild`, `CommandKindDeploy`). -/
inductive CommandKind where
  | build
  | deploy
deriving DecidableEq, Repr

/-- Modelled from the spec: a configured command belongs to a branch and a
pipeline kind (`command pipelines keyed by (branch pattern, pipeline kind)`);
the command text itself is irrelevant to the claims. -/
structure Command where
  branch : String
  kind : CommandKind
deriving DecidableEq, Repr

/-- Modelled from the spec: a `CommandLog` records one executed command's
`exit outcome (boolean pass/fail)`; only that outcome matters here. -/
structure CommandLog where
  passed : Bool
deriving DecidableEq, Repr

/-- Modelled from the spec: `CommandLog.Passed` reports the recorded
boolean exit outcome of the command. -/
def CommandLog.Passed (c : CommandLog) : Bool := c.passed

/-- The repository configuration visible to a job: its set of configured
commands (`Repository` rows joined with their commands). -/
structure Repository where
  commands : List Command
deriving Repr

/-- Modelled from the spec: `Repository.GetCommands(branch, kind)` returns
the ordered command list configured for that branch and pipeline kind. -/
def Repository.GetCommands (r : Repository) (branch : String)
    (kind : CommandKind) : List Command :=
  r.commands.filter (fun c => c.branch = branch ∧ c.kind = kind)

/-- `Job` from `database/job.go`, keeping the fields the lifecycle
predicates read.  Timestamps are `Nat` with `0` the unset (zero) value. -/
structure Job where
  cancelled : Bool := false
  tasksStarted : Nat := 0
  tasksFinished : Nat := 0
  deployFinished : Nat := 0
  repository : Repository := ⟨[]⟩
  branch : String := ""
  commandLogs : List CommandLog := []
deriving Repr

/-- Go `t.After(time.Time{})`: the timestamp is strictly after the zero
value, i.e. it has been set. -/
def timeSet (t : Nat) : Bool := 0 < t

/-- Modelled from the spec: `GetCommandLogsForJob` returns the job's own
ordered `CommandLog` sequence (the persistence layer preserves insertion
order of CommandLogs per Job). -/
def GetCommandLogsForJob (j : Job) : List CommandLog := j.commandLogs

/-- `Job.Passed` from `database/job.go`: true iff no command log records a
failing outcome (the Go loop returns `false` at the first failing log). -/
def Job.Passed (j : Job) : Bool :=
  (GetCommandLogsForJob j).all (fun c => c.Passed)

/-- `Job.Status` from `database/job.go`. -/
def Job.Status (j : Job) : String :=
  if timeSet j.tasksFinished then
    if j.Passed then JobStatusSuccess else JobStatusError
  else JobStatusPending

/-- `Job.ShouldBuild` from `database/job.go`. -/
def Job.ShouldBuild (j : Job) : Bool :=
  if 0 < (j.repository.GetCommands j.branch CommandKind.build).length then
    j.Passed
  else false

/-- `Job.ShouldDeploy` from `database/job.go`. -/
def Job.ShouldDeploy (j : Job) : Bool :=
  if 0 < (j.repository.GetCommands j.branch CommandKind.deploy).length then
    j.Passed
  else false

/-- `Job.Done` from `database/job.go`, with the same if-chain. -/
def Job.Done (j : Job) : Bool :=
  if j.ShouldDeploy && !(timeSet j.deployFinished) then false
  else if !(timeSet j.tasksFinished) then false
  else true

/-- `Job.IsRunning` from `database/job.go`. -/
def Job.IsRunning (j : Job) : Bool :=
  if timeSet j.tasksStarted && !j.Done then true else false

end Database

open Database

/-- C1: for every Job, `Status()` is `pending` exactly when `tasksFinished`
is unset; it is `success` exactly when `tasksFinished` is set and every
CommandLog of the Job records a passing outcome (vacuously for zero logs),
and `error` exactly when `tasksFinished` is set and some log failed.  The
quantification over `j` covers 0, 1 and N command logs. -/
theorem job_status_characterisation (j : Job) :
    (j.Status = JobStatusPending ↔ j.tasksFinished = 0) ∧
    (j.Status = JobStatusSuccess ↔
      (0 < j.tasksFinished ∧
        ∀ c ∈ GetCommandLogsForJob j, c.Passed = true)) ∧
    (j.Status = JobStatusError ↔
      (0 < j.tasksFinished ∧
        ∃ c ∈ GetCommandLogsForJob j, c.Passed = false)) := by
  have hPS : JobStatusPending ≠ JobStatusSuccess := by decide
  have hPE : JobStatusPending ≠ JobStatusError := by decide
  have hSE : JobStatusSuccess ≠ JobStatusError := by decide
  have hbridge : j.Passed = true ↔
      ∀ c ∈ GetCommandLogsForJob j, c.Passed = true := by
    simp [Job.Passed, List.all_eq_true]
  have hbridge' : j.Passed = false ↔
      ∃ c ∈ GetCommandLogsForJob j, c.Passed = false := by
    rw [← Bool.not_eq_true, hbridge]
    push_neg
    constructor
    · rintro ⟨c, hc, hcf⟩; exact ⟨c, hc, by simpa using hcf⟩
    · rintro ⟨c, hc, hcf⟩; exact ⟨c, hc, by simp [hcf]⟩
  rcases Nat.eq_zero_or_pos j.tasksFinished with h | h
  · rw [← hbridge, ← hbridge']
    simp [Job.Status, timeSet, h, hPS, hPE]
  · have h' : j.tasksFinished ≠ 0 := Nat.pos_iff_ne_zero.mp h
    rw [← hbridge, ← hbridge']
    cases hp : j.Passed
    · simp [Job.Status, timeSet, h, h', hp, hPS, hPE, hSE,
        Ne.symm hPS, Ne.symm hPE, Ne.symm hSE]
    · simp [Job.Status, timeSet, h, h', hp, hPS, hPE, hSE,
        Ne.symm hPS, Ne.symm hPE, Ne.symm hSE]

/-- A job that passed its build, has a deploy command configured for its
branch, and whose deploy stage has not finished yet. -/
def jobDeployPending : Job :=
  { tasksStarted := 1
    tasksFinished := 2
    deployFinished := 0
    repository := ⟨[{ branch := "master", kind := CommandKind.deploy }]⟩
    branch := "master"
    commandLogs := [⟨true⟩] }

/-- A started, finished job with no deploy commands configured. -/
def jobNoDeploy : Job :=
  { tasksStarted := 1
    tasksFinished := 2
    commandLogs := [⟨true⟩] }

/-- C2: `Done()` is true exactly when `tasksFinished` is set and, in
addition, either `ShouldDeploy()` is false or `deployFinished` is set. -/
theorem job_done_characterisation (j : Job) :
    j.Done = true ↔
      (0 < j.tasksFinished ∧
        (j.ShouldDeploy = false ∨ 0 < j.deployFinished)) := by
  simp only [Job.Done, timeSet]
  by_cases hd : j.ShouldDeploy <;>
    by_cases hdf : 0 < j.deployFinished <;>
      by_cases htf : 0 < j.tasksFinished <;>
        simp [hd, hdf, htf]

/-- C3 (counterexample): the claim "no Job makes `IsRunning()` and
`Status()==Success` hold simultaneously" is false.  A job whose build
passed, whose branch has a deploy command configured and whose deploy
stage is still pending is `IsRunning()` while `Status()` already reports
success. -/
theorem running_and_success_simultaneously :
    jobDeployPending.IsRunning = true ∧
      jobDeployPending.Status = JobStatusSuccess := by
  decide

/-- C3 (amended): `IsRunning()` and `Status()==Success` can coincide only
while a deploy stage is pending: for every Job with `ShouldDeploy()` false
or `deployFinished` set, they never hold simultaneously. -/
theorem running_success_exclusive_without_pending_deploy (j : Job)
    (h : j.ShouldDeploy = false ∨ 0 < j.deployFinished) :
    ¬(j.IsRunning = true ∧ j.Status = JobStatusSuccess) := by
  rintro ⟨hrun, hsucc⟩
  have htf : 0 < j.tasksFinished := by
    by_contra hno
    have hz : j.tasksFinished = 0 := by omega
    rw [Job.Status, if_neg (by simp [timeSet, hz])] at hsucc
    exact (by decide : JobStatusPending ≠ JobStatusSuccess) hsucc
  have hdone : j.Done = true := by
    rcases h with h | h
    · simp [Job.Done, timeSet, h, htf]
    · simp [Job.Done, timeSet, h, htf]
  simp [Job.IsRunning, hdone] at hrun

/-- C3 (witness for the amended claim) at a job with no deploy commands. -/
theorem running_success_exclusive_witness :
    ¬(jobNoDeploy.IsRunning = true ∧
        jobNoDeploy.Status = JobStatusSuccess) :=
  running_success_exclusive_without_pending_deploy jobNoDeploy
    (Or.inl (by decide))

/-- C4: `ShouldDeploy()` is true exactly when at least one deploy command
is configured for the job's branch and the job passed (in the code,
`Passed()` over the job's CommandLogs); in particular a job whose branch
has zero deploy commands configured never deploys, whatever the build
outcome. -/
theorem should_deploy_characterisation (j : Job) :
    j.ShouldDeploy = true ↔
      (j.repository.GetCommands j.branch CommandKind.deploy ≠ [] ∧
        j.Passed = true) := by
  by_cases hlen :
      0 < (j.repository.GetCommands j.branch CommandKind.deploy).length
  · simp [Job.ShouldDeploy, hlen, List.length_pos.mp hlen]
  · have hnil : j.repository.GetCommands j.branch CommandKind.deploy = [] :=
      List.length_eq_zero.mp (by omega)
    simp [Job.ShouldDeploy, hlen, hnil]

namespace Callbacks

/-- Go `strings.Split` with a one-character separator, over character
lists: `Split("", sep) = [""]`, and the string is cut around every
occurrence of the separator. -/
def goSplit (sep : Char) : List Char → List (List Char)
  | [] => [[]]
  | c :: rest =>
    if c = sep then [] :: goSplit sep rest
    else
      match goSplit sep rest with
      | [] => [[c]]
      | s :: ss => (c :: s) :: ss

/-- `strings.Split` produces one more segment than there are separator
occurrences. -/
theorem goSplit_length (sep : Char) (l : List Char) :
    (goSplit sep l).length = l.count sep + 1 := by
  induction l with
  | nil => rfl
  | cons c rest ih =>
    by_cases h : c = sep
    · simp [goSplit, h, List.count_cons, ih]
    · have hne : goSplit sep rest ≠ [] := by
        intro hnil
        rw [hnil] at ih
        simp at ih
      match hm : goSplit sep rest with
      | [] => exact absurd hm hne
      | s :: ss =>
        rw [hm] at ih
        simp only [goSplit, if_neg h, hm, List.length_cons,
          List.count_cons] at *
        simp [h] at *
        omega

/-- `GitUser` from `callbacks/github.go`. -/
structure GitUser where
  Name : String := ""
  Email : String := ""
deriving DecidableEq, Repr

/-- `GitHubUser` from `callbacks/github.go`. -/
structure GitHubUser where
  Name : String := ""
  Email : String := ""
  Username : String := ""
deriving DecidableEq, Repr

/-- `Commit` from `callbacks/github.go`. -/
structure Commit where
  Id : String := ""
  Distinct : Bool := false
  Message : String := ""
  Timestamp : String := ""
  Url : String := ""
  Author : GitHubUser := {}
  Committer : GitHubUser := {}
  Added : List String := []
  Removed : List String := []
  Modified : List String := []
deriving DecidableEq, Repr

/-- `Repository` from `callbacks/github.go` (the webhook's repository
object; distinct from the database repository). -/
structure Repository where
  Id : Int := 0
  Name : String := ""
  Url : String := ""
  Description : String := ""
deriving DecidableEq, Repr

/-- `GitHubCallback` from `callbacks/github.go`.  Every field defaults to
its Go zero value, which is what `json.Unmarshal` leaves behind when the
body cannot be parsed. -/
structure GitHubCallback where
  Ref : String := ""
  After : String := ""
  Before : String := ""
  Created : Bool := false
  Deleted : Bool := false
  Forced : Bool := false
  Compare : String := ""
  Commits : List Commit := []
  Head_commit : Commit := {}
  Repository : Repository := {}
  Pusher : GitUser := {}
deriving DecidableEq, Repr

/-- The zero-value `GitHubCallback`. -/
def zeroCallback : GitHubCallback := {}

/-- `GitHubCallback.Branch` from `callbacks/github.go`: split the ref on
`/` and return the element at fixed index 2.  The Go index access panics
when the split has at most two segments; that panic is `none` here. -/
def GitHubCallback.Branch (g : GitHubCallback) : Option String :=
  ((goSplit '/' g.Ref.toList)[2]?).map fun l => ⟨l⟩

/-- `GitHubCallback.URL` from `callbacks/github.go`. -/
def GitHubCallback.URL (g : GitHubCallback) : String := g.Repository.Url

/-- `GitHubCallback.By` from `callbacks/github.go`. -/
def GitHubCallback.By (g : GitHubCallback) : String × String :=
  (g.Pusher.Name, g.Pusher.Email)

/-- `GitHubCallback.ShouldBuild` from `callbacks/github.go`. -/
def GitHubCallback.ShouldBuild (g : GitHubCallback) : Bool :=
  if g.Deleted = true then false else true

/-- `GitHubCallback.Commit` from `callbacks/github.go`. -/
def GitHubCallback.Commit (g : GitHubCallback) : String := g.Head_commit.Id

/-- Follows the spec's words, for comparison with `Branch`: the branch
name is `the reference's final path segment`. -/
def finalPathSegment (ref : String) : Option String :=
  ((goSplit '/' ref.toList).getLast?).map fun l => ⟨l⟩

/-- The two ways `parseGitHub` can panic: the out-of-range index in
`Branch()` (hit while building the job, before the unmarshal error is
checked), and the explicit `panic("Could not unmarshal request")`. -/
inductive GoPanic where
  | indexOutOfRange
  | unmarshalFailed
deriving DecidableEq, Repr

/-- `logging.Job` as constructed by `parseGitHub` (the fields it fills). -/
structure LoggingJob where
  URL : String
  Branch : String
  Commit : String
  Name : String
  Email : String
deriving DecidableEq, Repr

/-- `parseGitHub` from `callbacks/github.go`.  Its input is the result of
`json.Unmarshal` (`none` when the body cannot be parsed, leaving the
zero-value callback).  Mirroring the Go control flow: the `logging.Job`
literal is built first — evaluating `cb.Branch()`, which can panic — then
the unmarshal error check panics, then `ShouldBuild` decides whether the
job goes to the build queue (`.ok (some job)`) or is dropped with a log
line (`.ok none`). -/
def parseGitHub (unmarshalled : Option GitHubCallback) :
    Except GoPanic (Option LoggingJob) :=
  let cb := unmarshalled.getD zeroCallback
  match cb.Branch with
  | none => .error .indexOutOfRange
  | some br =>
    if unmarshalled.isNone then .error .unmarshalFailed
    else if cb.ShouldBuild then
      .ok (some { URL := cb.URL, Branch := br, Commit := cb.Commit,
                  Name := cb.By.1, Email := cb.By.2 })
    else .ok none

/-- The job placed on the build queue by a `parseGitHub` run, if any. -/
def queuedJob : Except GoPanic (Option LoggingJob) → Option LoggingJob
  | .ok r => r
  | .error _ => none

/-- A parsed deletion-event callback. -/
def deletedCallback : GitHubCallback :=
  { Ref := "refs/heads/master", Deleted := true }

/-- A parsed ordinary push callback. -/
def masterCallback : GitHubCallback :=
  { Ref := "refs/heads/master", Deleted := false }

/-- A parsed push callback whose ref has four path segments. -/
def featureCallback : GitHubCallback :=
  { Ref := "refs/heads/feature/x" }

end Callbacks

open Callbacks

/-- C5 (counterexample): `Branch()` does not return the ref's final path
segment.  On `refs/heads/feature/x` it returns `feature`, while the final
path segment is `x`. -/
theorem branch_not_final_segment :
    featureCallback.Branch = some "feature" ∧
      finalPathSegment featureCallback.Ref = some "x" ∧
      ("feature" : String) ≠ "x" := by
  refine ⟨by decide, by decide, by decide⟩

/-- C5 (amended): `Branch()` extracts the segment at fixed index 2 of the
ref split on `/`; this coincides with the ref's final path segment exactly
for refs with three segments (two `/` separators), such as
`refs/heads/<branch>`. -/
theorem branch_is_third_segment (g : GitHubCallback)
    (h : g.Ref.toList.count '/' = 2) :
    g.Branch = finalPathSegment g.Ref := by
  have hlen := goSplit_length '/' g.Ref.toList
  rw [h] at hlen
  rw [GitHubCallback.Branch, finalPathSegment, List.getLast?_eq_getElem?,
    hlen]

/-- C5 (witness for the amended claim) on `refs/heads/master`. -/
theorem branch_is_third_segment_witness :
    masterCallback.Branch = finalPathSegment masterCallback.Ref :=
  branch_is_third_segment masterCallback (by decide)

/-- C6: a parsed payload with the `Deleted` flag set has
`ShouldBuild() = false` and `parseGitHub` queues no job for it; a parsed
payload with `Deleted` unset has `ShouldBuild() = true`. -/
theorem deleted_never_queued (cb : GitHubCallback) :
    (cb.Deleted = true →
      cb.ShouldBuild = false ∧ queuedJob (parseGitHub (some cb)) = none) ∧
    (cb.Deleted = false → cb.ShouldBuild = true) := by
  constructor
  · intro hdel
    have hsb : cb.ShouldBuild = false := by
      simp [GitHubCallback.ShouldBuild, hdel]
    refine ⟨hsb, ?_⟩
    simp only [parseGitHub, Option.getD_some, Option.isNone_some]
    cases hb : cb.Branch with
    | none => rfl
    | some br => simp [hsb, queuedJob]
  · intro hlive
    simp [GitHubCallback.ShouldBuild, hlive]

/-- C6 (witness): a concrete deletion event is not queued, and a concrete
ordinary push would build. -/
theorem deleted_never_queued_witness :
    (deletedCallback.ShouldBuild = false ∧
      queuedJob (parseGitHub (some deletedCallback)) = none) ∧
    masterCallback.ShouldBuild = true :=
  ⟨(deleted_never_queued deletedCallback).1 rfl,
   (deleted_never_queued masterCallback).2 rfl⟩

/-- C7 (counterexample): on an unparsable body, `parseGitHub` does not
return normally — it panics (Go's index-out-of-range inside `Branch()` on
the zero-value callback, reached before the explicit unmarshal panic), so
control does not come back to the handling context. -/
theorem malformed_payload_aborts :
    ¬∃ r, parseGitHub none = Except.ok r := by
  have h : parseGitHub none = Except.error GoPanic.indexOutOfRange := rfl
  rintro ⟨r, hr⟩
  rw [h] at hr
  exact Except.noConfusion hr

/-- C7 (amended): on an unparsable body no job is ever queued, but the
handling does not return normally: `parseGitHub` panics with an
index-out-of-range from `Branch()` on the zero-value callback. -/
theorem malformed_payload_no_job_but_panic :
    queuedJob (parseGitHub none) = none ∧
      parseGitHub none = Except.error GoPanic.indexOutOfRange :=
  ⟨rfl, rfl⟩

/-- C10: `Branch()` is in bounds exactly when the callback's ref contains
at least two `/` separators; with fewer separators (fewer than three
segments — for example the empty zero-value ref) the index-2 access is out
of bounds. -/
theorem branch_in_bounds_iff :
    (∀ g : GitHubCallback,
      (g.Branch).isSome = true ↔ 2 ≤ g.Ref.toList.count '/') ∧
    zeroCallback.Branch = none := by
  constructor
  · intro g
    have hlen := goSplit_length '/' g.Ref.toList
    rw [GitHubCallback.Branch]
    cases hg : (goSplit '/' g.Ref.toList)[2]? with
    | none =>
      have hle : (goSplit '/' g.Ref.toList).length ≤ 2 :=
        List.getElem?_eq_none_iff.mp hg
      simp only [Option.map_none']
      constructor
      · intro hfalse; simp at hfalse
      · intro hcount; omega
    | some s =>
      have h2 : 2 < (goSplit '/' g.Ref.toList).length := by
        rcases List.getElem?_eq_some.mp hg with ⟨h1, _⟩
        exact h1
      simp only [Option.map_some']
      constructor
      · intro _; omega
      · intro _; rfl
  · rfl

namespace Notification

/-- The `notification` struct of package `notification` (the fields the
HipChat sink reads): the rendered message text and the job's pass/fail
status. -/
structure notification where
  rendered : String := ""
  Status : Bool := false
deriving DecidableEq, Repr

/-- `hipchatPayload` from `notification/hipchat.go`. -/
structure hipchatPayload where
  Room : String := ""
  From : String := ""
  Color : String := ""
  Message : String := ""
  Notify : Bool := false
  Format : String := ""
  Status : Bool := false
deriving DecidableEq, Repr

/-- The `url.Values` assembled by `hipchatPayload.toURLEncoded` in
`notification/hipchat.go`, as (key, value) pairs in `Add` order; Go's
`url.Values.Encode` serialises exactly these pairs (keys sorted,
values percent-escaped).  Note the encoder reads `h.Status`, not the
`Color` field. -/
def hipchatPayload.toURLValues (h : hipchatPayload) :
    List (String × String) :=
  [("room_id", h.Room),
   ("from", h.From),
   ("message", h.Message),
   ("message_format", h.Format),
   ("notify", if h.Notify = true then "1" else "2"),
   ("color", if h.Status = true then "green" else "red")]

/-- `notToHipChapt` from `notification/hipchat.go`. -/
def notToHipChapt (n : notification) (channel : String) : hipchatPayload :=
  { Color := "green"
    Notify := true
    Format := "text"
    Room := channel
    From := "Leeroy"
    Message := n.rendered
    Status := n.Status }

/-- Outcome of one notification sink call: it either returns to its
caller (having possibly logged an error), or terminates the whole process
(Go `log.Fatalln`). -/
inductive SinkOutcome where
  | returned (loggedError : Bool)
  | fatalExit
deriving DecidableEq, Repr

/-- `hipchat` from `notification/hipchat.go`: posts the encoded payload
to the HipChat API; a failed `http.Post` is logged with `log.Println` and
the function returns.  The network outcome is abstracted as an `Option`
error. -/
def hipchat (n : notification) (key chl : String)
    (postError : Option String) : SinkOutcome :=
  match n, key, chl, postError with
  | _, _, _, some _ => .returned true
  | _, _, _, none => .returned false

/-- `PostPR` from `integrations/github/commentPR.go`: the repository
lookup, `json.Marshal`, and the GitHub request are each followed by an
error check that calls `log.Fatalln`, terminating the process.  The three
outcomes are abstracted as `Option` errors, checked in source order. -/
def PostPR (lookupError marshalError requestError : Option String) :
    SinkOutcome :=
  if lookupError.isSome then .fatalExit
  else if marshalError.isSome then .fatalExit
  else if requestError.isSome then .fatalExit
  else .returned false

end Notification

open Notification

/-- C8 (counterexample): the pull-request sink does not stay alive on
failure — a credential-lookup failure makes `PostPR` call `log.Fatalln`,
terminating the process instead of returning normally. -/
theorem postpr_fatal_on_lookup_failure :
    PostPR (some "repository not found") none none =
      SinkOutcome.fatalExit := rfl

/-- C8 (amended): the chat sink (`hipchat`) returns normally on every
delivery outcome, merely logging failures; the pull-request sink
(`PostPR`), by contrast, terminates the process via `log.Fatalln` whenever
its credential lookup, serialization, or request fails. -/
theorem sink_failure_behaviour (n : notification) (key chl : String)
    (postError lookupError marshalError requestError : Option String) :
    (∃ b, hipchat n key chl postError = SinkOutcome.returned b) ∧
    ((lookupError.isSome ∨ marshalError.isSome ∨ requestError.isSome) →
      PostPR lookupError marshalError requestError =
        SinkOutcome.fatalExit) := by
  constructor
  · cases postError <;> exact ⟨_, rfl⟩
  · intro h
    rcases hl : lookupError with _ | e
    · rcases hm : marshalError with _ | e
      · rcases hr : requestError with _ | e
        · rw [hl, hm, hr] at h
          simp at h
        · simp [PostPR, hl, hm]
      · simp [PostPR, hl]
    · simp [PostPR]

/-- C8 (witness for the amended claim) at a concrete failing post and a
concrete failing serialization. -/
theorem sink_failure_behaviour_witness :
    (∃ b, hipchat {} "k" "room" (some "timeout") =
      SinkOutcome.returned b) ∧
    PostPR none (some "marshal failed") none = SinkOutcome.fatalExit :=
  ⟨(sink_failure_behaviour {} "k" "room" (some "timeout") none
      (some "marshal failed") none).1,
   (sink_failure_behaviour {} "k" "room" (some "timeout") none
      (some "marshal failed") none).2 (Or.inr (Or.inl rfl))⟩

/-- C9: the encoded HipChat message built from a notification carries
`color=green` exactly when the notification's status is pass, and
`color=red` exactly when it is fail. -/
theorem hipchat_color_matches_status (n : notification) (channel : String) :
    ((("color", "green") ∈ (notToHipChapt n channel).toURLValues) ↔
      n.Status = true) ∧
    ((("color", "red") ∈ (notToHipChapt n channel).toURLValues) ↔
      n.Status = false) := by
  cases hs : n.Status <;>
    simp [hipchatPayload.toURLValues, notToHipChapt, hs]

/-- C1 (witness): the characterisation evaluated at a concrete finished,
passing job. -/
theorem job_status_characterisation_witness :
    jobNoDeploy.Status = JobStatusSuccess :=
  (job_status_characterisation jobNoDeploy).2.1.mpr
    ⟨by decide, by decide⟩

/-- C2 (witness): the characterisation evaluated at a concrete finished
job with no deploy commands. -/
theorem job_done_characterisation_witness :
    jobNoDeploy.Done = true :=
  (job_done_characterisation jobNoDeploy).mpr
    ⟨by decide, Or.inl (by decide)⟩

/-- C4 (witness): the characterisation evaluated at a concrete job with a
configured deploy command and a passing build. -/
theorem should_deploy_characterisation_witness :
    jobDeployPending.ShouldDeploy = true :=
  (should_deploy_characterisation jobDeployPending).mpr
    ⟨by decide, by decide⟩

/-- C9 (witness): a concrete passing notification carries the green
color. -/
theorem hipchat_color_matches_status_witness :
    ("color", "green") ∈
      (notToHipChapt ⟨"build ok", true⟩ "room").toURLValues :=
  (hipchat_color_matches_status ⟨"build ok", true⟩ "room").1.mpr rfl

/-- C10 (witness): a three-segment ref is in bounds for `Branch()`. -/
theorem branch_in_bounds_iff_witness :
    (masterCallback.Branch).isSome = true :=
  (branch_in_bounds_iff.1 masterCallback).mpr (by decide)
